import Mathlib

/-!
Verification development for the AI_chat agent orchestrator.

The Python source under scrutiny is shallowly embedded below:
* `ContextManager` (src/plugins/context_manager.py): message extraction,
  context update, dialogue-round trimming, custom-prompt operations.
* `SessionManager` (src/plugins/session_manager.py): the per-turn session
  store and `update_session`.
* `ToolManager` (src/plugins/tool_manager.py): the method surface and
  `execute_tool_with_timeout`.
* `TaskManager` (src/plugins/task_manager.py): workflows A and C, the
  tool-call loop, response extraction.
* `QueueManager` (src/plugins/queue_manager.py): `enqueue_message` and the
  `asyncio.Queue` saturation behaviour.
* `RulesManager` (src/plugins/rules_manager.py): mode selection and
  workflow-B result handling.
* `AgentCore` (src/Agent_core.py): `_handle_message_result` for workflow C.

Python strings are embedded as `List Char`; the helpers `pyStrip`,
`pyReplace`, `joinWithSpace` reproduce `str.strip`, `str.replace` and
`" ".join`.  Asynchronous effects are embedded as explicit state passing;
the model backend is an oracle parameter.
-/

namespace AIChat

/-- Python strings, embedded as lists of characters. -/
abbrev PyStr := List Char

/-- The whitespace set of Python `str.strip()`. -/
def isPySpace (c : Char) : Bool :=
  c = ' ' || c = '\t' || c = '\n' || c = '\r' || c = '\x0b' || c = '\x0c'

/-- Python `s.strip()`: remove leading and trailing whitespace. -/
def pyStrip (s : PyStr) : PyStr :=
  ((s.dropWhile isPySpace).reverse.dropWhile isPySpace).reverse

/-- Worker for `pyReplace`; only called with a non-empty pattern `p`.
Replaces every non-overlapping occurrence of `p`, scanning left to right,
by `r` (Python `str.replace` semantics).  `skip > 0` means the scanner is
inside an already-matched occurrence and still has `skip` characters of it
to consume. -/
def pyReplaceAux (p r : PyStr) : Nat → PyStr → PyStr
  | _, [] => []
  | skip + 1, _ :: t => pyReplaceAux p r skip t
  | 0, c :: t =>
    if p.isPrefixOf (c :: t) then r ++ pyReplaceAux p r (p.length - 1) t
    else c :: pyReplaceAux p r 0 t

/-- Python `s.replace(p, r)`.  For an empty pattern Python inserts `r`
at every gap, e.g. `"ab".replace("", "-") = "-a-b-"`. -/
def pyReplace (s p r : PyStr) : PyStr :=
  if p.isEmpty then r ++ s.flatMap (fun c => c :: r)
  else pyReplaceAux p r 0 s

/-- Python `" ".join(parts)`. -/
def joinWithSpace : List PyStr → PyStr
  | [] => []
  | [x] => x
  | x :: y :: xs => x ++ (" ".data) ++ joinWithSpace (y :: xs)

/-! ## Data model -/

/-- One element of a multimodal content list:
`{type:"text", text}` or `{type:"image_url", image_url:{url}}`. -/
inductive Part
  | text (s : PyStr)
  | imageUrl (url : PyStr)
deriving DecidableEq, Repr

/-- A message's `content`: either a plain string or a list of parts. -/
inductive Content
  | str (s : PyStr)
  | parts (l : List Part)
deriving DecidableEq, Repr

/-- Python truthiness of a content value (`""` and `[]` are falsy). -/
def pyTruthyContent : Content → Bool
  | Content.str s => !s.isEmpty
  | Content.parts l => !l.isEmpty

def roleUser : PyStr := ("user".data)
def roleAssistant : PyStr := ("assistant".data)
def roleSystem : PyStr := ("system".data)
def roleTool : PyStr := ("tool".data)

/-- One `{id, type:"function", function:{name, arguments}}` tool call;
`arguments` is an opaque JSON string. -/
structure ToolCall where
  id : PyStr
  fname : PyStr
  args : PyStr
deriving DecidableEq, Repr

/-- A message dict.  `toolCalls`, `toolCallId` and `name` model the extra
keys carried by assistant tool-call messages and tool result messages;
plain messages leave them empty/none. -/
structure Msg where
  role : PyStr
  content : Content
  toolCalls : List ToolCall
  toolCallId : Option PyStr
  name : Option PyStr
deriving DecidableEq, Repr

/-- A plain `{role, content}` message. -/
def mkMsg (r : PyStr) (c : Content) : Msg :=
  { role := r, content := c, toolCalls := [], toolCallId := none, name := none }

/-- Incoming task payload (`message_data` / `task_data`): the dict keys the
embedded code reads, each `Option` to model key absence. -/
structure MessageData where
  chatId : Option PyStr
  role : Option PyStr
  content : Option Content
  message : Option Msg
  isRespond : Option Bool
deriving DecidableEq, Repr

/-- Python truthiness of the payload dict (`if not task_data`). -/
def MessageData.truthy (md : MessageData) : Bool :=
  md.chatId.isSome || md.role.isSome || md.content.isSome ||
    md.message.isSome || md.isRespond.isSome

/-- Per-chat conversation context.  The Python dict also carries `chat_id`,
`chat_mode`, `tools_call` and model generation parameters; none of the
modelled operations read or change them, so only `messages` is kept. -/
structure Context where
  messages : List Msg
deriving DecidableEq, Repr

/-- `context_manager` configuration (src/plugins/context_manager.py,
`default_config` / `initialize`). -/
structure CtxConfig where
  corePrompt : PyStr
  maxUserMessagesPerChat : Nat
  virtualReplyEnabled : Bool
  virtualReplyText : PyStr
deriving DecidableEq, Repr

/-- The defaults of `ContextManager.default_config`. -/
def defaultCtxConfig : CtxConfig :=
  { corePrompt := ("你是智能助手".data)
    maxUserMessagesPerChat := 20
    virtualReplyEnabled := true
    virtualReplyText := ("已跳过此信息".data) }

/-- `ContextManager._ensure_default_context`: a fresh context holds exactly
one system message whose content is the core prompt. -/
def defaultContext (cfg : CtxConfig) : Context :=
  { messages := [mkMsg roleSystem (Content.str cfg.corePrompt)] }

/-! ## ContextManager: message extraction, trimming, update -/

/-- `ContextManager._extract_message_content`. -/
def extractMessageContent (md : MessageData) : Option Content :=
  match md.content with
  | none => none
  | some (Content.str s) => some (Content.str s)
  | some (Content.parts l) =>
    if l.isEmpty then some (Content.str ("[图片消息]".data))
    else
      let hasText := l.any (fun p =>
        match p with
        | Part.text t => !(pyStrip t).isEmpty
        | Part.imageUrl _ => false)
      let images := l.filter (fun p =>
        match p with
        | Part.text _ => false
        | Part.imageUrl _ => true)
      if hasText then some (Content.parts l)
      else if 0 < images.length then
        let ph : PyStr :=
          if images.length = 1 then ("[图片消息]".data)
          else ("[".data) ++ (toString images.length).data ++ ("张图片]".data)
        some (Content.parts (Part.text ph :: images))
      else some (Content.str ("[消息]".data))

/-- Number of user-role messages (`_count_user_messages` / the counting
loops inside `_trim_context_messages`). -/
def userCount (msgs : List Msg) : Nat :=
  (msgs.filter (fun m => m.role = roleUser)).length

def isAssistantMsg (m : Msg) : Bool := m.role = roleAssistant

/-- Dropping a prefix never lengthens a list. -/
theorem length_dropWhile_le' {α : Type} (p : α → Bool) (l : List α) :
    (l.dropWhile p).length ≤ l.length := by
  induction l with
  | nil => simp [List.dropWhile]
  | cons a t ih =>
    by_cases h : p a
    · simpa [List.dropWhile, h] using Nat.le_succ_of_le ih
    · simp [List.dropWhile, h]

/-- The scanning loop of `ContextManager._trim_context_messages`:
`toRemove` is `messages_to_remove - removed_count`.  System messages are
kept; a user message starts a dialogue round (the user message plus the
contiguous run of assistant messages after it) which is deleted whole
(`del messages[start_index:end_index]`); any other message is deleted
singly as an orphan.  The loop stops once `toRemove` hits zero.  The
slice deletion of a round is realized by the `skipping` flag: while it is
set, the contiguous assistant run of the removed round is being consumed. -/
def trimGo (skipping : Bool) (toRemove : Nat) : List Msg → List Msg
  | [] => []
  | m :: rest =>
    if skipping && isAssistantMsg m then trimGo true toRemove rest
    else if toRemove = 0 then m :: rest
    else if m.role = roleSystem then m :: trimGo false toRemove rest
    else if m.role = roleUser then trimGo true (toRemove - 1) rest
    else trimGo false toRemove rest

/-- `ContextManager._trim_context_messages`. -/
def trimMessages (limit : Nat) (msgs : List Msg) : List Msg :=
  if userCount msgs ≤ limit then msgs
  else trimGo false (userCount msgs - limit) msgs

/-- Result of `update_context`: the success flag of the returned dict and
the context state after the call. -/
structure UpdateResult where
  success : Bool
  ctx : Context
deriving DecidableEq, Repr

/-- `ContextManager.update_context`: assistant entries append the payload's
`message` verbatim (when its role is assistant); user entries append the
extracted content and, when `virtual_reply_enabled`, a virtual assistant
reply.  Both paths then trim; the failed-extraction path returns before
trimming. -/
def updateContext (cfg : CtxConfig) (ctx : Context) (md : MessageData) : UpdateResult :=
  if md.role.getD roleUser = roleAssistant then
    let msgs1 :=
      match md.message with
      | some am => if am.role = roleAssistant then ctx.messages ++ [am] else ctx.messages
      | none => ctx.messages
    { success := true
      ctx := { messages := trimMessages cfg.maxUserMessagesPerChat msgs1 } }
  else
    match extractMessageContent md with
    | none => { success := false, ctx := ctx }
    | some c =>
      if pyTruthyContent c then
        let msgs1 := ctx.messages ++ [mkMsg roleUser c] ++
          (if cfg.virtualReplyEnabled then
            [mkMsg roleAssistant (Content.str cfg.virtualReplyText)]
          else [])
        { success := true
          ctx := { messages := trimMessages cfg.maxUserMessagesPerChat msgs1 } }
      else { success := false, ctx := ctx }

/-! ## ContextManager: custom prompt operations -/

/-- The search loop shared by `update_custom_prompt` and
`delete_custom_prompt`: walk to the first system message and overwrite its
`content`; `none` when no system message exists. -/
def replaceFirstSystem (c : PyStr) : List Msg → Option (List Msg)
  | [] => none
  | m :: rest =>
    if m.role = roleSystem then
      some ({ role := m.role, content := Content.str c, toolCalls := m.toolCalls
              toolCallId := m.toolCallId, name := m.name } :: rest)
    else (replaceFirstSystem c rest).map (fun l => m :: l)

/-- Find-or-insert of the system message shared by `update_custom_prompt`
and `delete_custom_prompt`: the first system message's content is set to
`c`; if none exists a `{role:"system", content:""}` message is inserted at
the front and then updated. -/
def setSystemContent (msgs : List Msg) (c : PyStr) : List Msg :=
  match replaceFirstSystem c msgs with
  | some msgs2 => msgs2
  | none => mkMsg roleSystem (Content.str c) :: msgs

/-- `ContextManager.update_custom_prompt` (the flush/reload cache dance
leaves the context value itself as computed here). -/
def updateCustomPrompt (core : PyStr) (ctx : Context) (x : PyStr) : Context :=
  let fullPrompt :=
    if (pyStrip x).isEmpty then core
    else pyStrip x ++ ("\n".data) ++ core
  { messages := setSystemContent ctx.messages fullPrompt }

/-- `ContextManager.delete_custom_prompt`. -/
def deleteCustomPrompt (core : PyStr) (ctx : Context) : Context :=
  { messages := setSystemContent ctx.messages core }

/-- The `(custom_prompt, has_custom_prompt)` pair of `get_custom_prompt`. -/
structure PromptInfo where
  customPrompt : PyStr
  hasCustomPrompt : Bool
deriving DecidableEq, Repr

/-- `ContextManager.get_custom_prompt`: inspects the first system message;
a content equal to the core prompt means no custom prompt; otherwise, if
the core prompt occurs inside the content, the custom prompt is the content
with every occurrence of the core prompt removed, stripped. -/
def getCustomPrompt (core : PyStr) (ctx : Context) : PromptInfo :=
  match ctx.messages.find? (fun m => m.role = roleSystem) with
  | none => { customPrompt := [], hasCustomPrompt := false }
  | some m =>
    match m.content with
    | Content.str content =>
      if content = core then { customPrompt := [], hasCustomPrompt := false }
      else if core <:+: content then
        let cp := pyStrip (pyReplace content core [])
        { customPrompt := cp, hasCustomPrompt := !cp.isEmpty }
      else { customPrompt := [], hasCustomPrompt := false }
    | Content.parts _ => { customPrompt := [], hasCustomPrompt := false }

/-! ## SessionManager: session store and `update_session` -/

/-- Ephemeral session: the reshaped `data.messages` transcript and
`tool_call_count` (other `SessionData` fields are timestamps and the
chat id, unread by the modelled operations). -/
structure Session where
  messages : List Msg
  toolCallCount : Nat
deriving DecidableEq, Repr

/-- The `sessions` dict, keyed by session id.  The secondary
`chat_to_sessions` index is derived bookkeeping and is not modelled. -/
abbrev SessionStore := List (PyStr × Session)

def lookupSession (st : SessionStore) (sid : PyStr) : Option Session :=
  (st.find? (fun e => e.1 = sid)).map (fun e => e.2)

/-- `SessionManager.update_session`: appends each tool result dict to the
session's messages and increases `tool_call_count` by the number of
results.  Returns the success flag and the new store. -/
def updateSession (st : SessionStore) (sid : PyStr) (toolResults : List Msg) :
    Bool × SessionStore :=
  match lookupSession st sid with
  | none => (false, st)
  | some s =>
    let s2 : Session :=
      { messages := s.messages ++ toolResults
        toolCallCount := s.toolCallCount + toolResults.length }
    (true, st.map (fun e => if e.1 = sid then (e.1, s2) else e))

/-- `SessionManager._cleanup_session`: remove the session from the store. -/
def cleanupSession (st : SessionStore) (sid : PyStr) : SessionStore :=
  st.filter (fun e => !(decide (e.1 = sid)))

/-! ## ToolManager -/

/-- The methods defined on `ToolManager` (src/plugins/tool_manager.py).
Note that no `execute_tool` is among them; only
`execute_tool_with_timeout` exists. -/
def toolManagerMethodNames : List String :=
  ["set_context_manager", "initialize", "_ensure_required_services",
   "_create_default_service", "_write_file_sync", "_ensure_directories",
   "_load_tool_configs", "_scan_and_register_tools", "_register_tool_module",
   "_register_tool_from_definition", "inject_context_to_modules",
   "_generate_tool_definitions_cache", "get_tool_definitions",
   "execute_tool_with_timeout", "reload_tools", "get_tool_info",
   "list_tools", "get_registered_tools_count", "update_tool_config",
   "get_tool_config"]

/-- A tool's server-side config (`ToolConfig` dataclass).  `timeoutStr` is
the printed form of the float `timeout` exactly as Python's f-string
interpolates it (e.g. `30.0`); `max_retries` is unread. -/
structure ToolCfg where
  timeoutStr : PyStr
  enabled : Bool
deriving DecidableEq, Repr

/-- `ToolConfig()` defaults: 30 second timeout, enabled. -/
def defaultToolCfg : ToolCfg := { timeoutStr := ("30.0".data), enabled := true }

/-- `self.tool_configs.get(tool_name, ToolConfig(name=tool_name))`. -/
def lookupToolCfg (cfgs : List (PyStr × ToolCfg)) (n : PyStr) : ToolCfg :=
  ((cfgs.find? (fun e => e.1 = n)).map (fun e => e.2)).getD defaultToolCfg

/-- Outcome of awaiting the tool handler under `asyncio.wait_for`:
it returns a value (already coerced by `str(...)`), raises an exception
with message `msg`, or exceeds the deadline. -/
inductive HandlerOutcome
  | ok (result : PyStr)
  | raised (msg : PyStr)
  | timedOut
deriving DecidableEq, Repr

/-- `ToolManager.execute_tool_with_timeout`: unknown tool and disabled tool
short-circuit to fixed strings; otherwise the handler outcome is mapped to
`str(result)`, the timeout string, or the failure string. -/
def executeToolWithTimeout (registry : List PyStr) (cfgs : List (PyStr × ToolCfg))
    (toolName : PyStr) (outcome : HandlerOutcome) : PyStr :=
  if ¬ toolName ∈ registry then ("工具不存在: ".data) ++ toolName
  else
    let cfg := lookupToolCfg cfgs toolName
    if ¬ cfg.enabled then ("工具已禁用: ".data) ++ toolName
    else
      match outcome with
      | HandlerOutcome.ok r => r
      | HandlerOutcome.timedOut =>
        ("工具执行超时 (超时时间: ".data) ++ cfg.timeoutStr ++ ("s)".data)
      | HandlerOutcome.raised m => ("工具执行失败: ".data) ++ m

/-! ## TaskManager: model responses, the tool loop, workflows A and C -/

/-- `choices[0].message` of a chat-completion response: `content` and
`tool_calls` are `Option` to model key absence. -/
structure RespMsg where
  content : Option PyStr
  toolCalls : Option (List ToolCall)
deriving DecidableEq, Repr

/-- A model backend response.  `topContent`/`topToolCalls` model the
non-OpenAI top-level keys the code also probes; `reprStr` stands for
Python's `str(model_response)` used as the last-resort fallback. -/
structure ModelResponse where
  choices : List RespMsg
  topContent : Option PyStr
  topToolCalls : Option (List ToolCall)
  reprStr : PyStr
deriving DecidableEq, Repr

/-- `TaskManager._has_tool_calls`. -/
def hasToolCallsResp (r : ModelResponse) : Bool :=
  match r.choices with
  | m :: _ => 0 < (m.toolCalls.getD []).length
  | [] =>
    match r.topToolCalls with
    | some l => 0 < l.length
    | none => false

/-- `TaskManager._extract_tool_calls` (the OpenAI branch re-packs each call
into the same `{id, function:{name, arguments}}` shape). -/
def extractToolCalls (r : ModelResponse) : List ToolCall :=
  match r.choices with
  | m :: _ => (m.toolCalls.getD []).map
      (fun tc => { id := tc.id, fname := tc.fname, args := tc.args })
  | [] =>
    match r.topToolCalls with
    | some l => l
    | none => []

/-- `TaskManager._extract_response_content` on the final (possibly `None`)
response of the tool loop. -/
def extractResponseContent : Option ModelResponse → PyStr
  | none => ("模型服务返回空响应".data)
  | some r =>
    let topFallback : PyStr :=
      match r.topContent with
      | some c => c
      | none => r.reprStr
    match r.choices with
    | m :: _ =>
      match m.content with
      | some c =>
        if !c.isEmpty then c
        else if m.toolCalls.isSome then ("[模型请求工具调用]".data)
        else topFallback
      | none =>
        if m.toolCalls.isSome then ("[模型请求工具调用]".data)
        else topFallback
    | [] => topFallback

/-- `TaskManager._execute_tool_call`.  The body invokes
`self.tool_manager.execute_tool(...)`; `ToolManager` defines no method of
that name (see `toolManagerMethodNames`), so the attribute lookup raises
`AttributeError`, the surrounding `except Exception` catches it, and the
function returns `None`. -/
def executeToolCall (_tc : ToolCall) : Option Msg := none

/-- The body of the `while call_count < max_tool_calls` loop of
`TaskManager._process_tool_calls`.  `backend` is the model backend oracle
(`_call_model_service`), indexed by the loop iteration `callCount`;
`remaining` is `max_tool_calls - call_count`.  Returns the final response
(`None` when a repeat model call returned `None`) and the session store
after the loop. -/
def toolLoopGo (backend : Nat → Option ModelResponse) (sid : PyStr) :
    Nat → Nat → ModelResponse → SessionStore → Option ModelResponse × SessionStore
  | 0, _, cur, st => (some cur, st)
  | remaining + 1, callCount, cur, st =>
    if hasToolCallsResp cur then
      let tcs := extractToolCalls cur
      if tcs.isEmpty then (some cur, st)
      else
        let toolResults := tcs.filterMap executeToolCall
        if toolResults.isEmpty then (some cur, st)
        else
          let st2 := (updateSession st sid toolResults).2
          match backend callCount with
          | none => (none, st2)
          | some nxt => toolLoopGo backend sid remaining (callCount + 1) nxt st2
    else (some cur, st)

/-- `TaskManager._process_tool_calls` (with `max_tool_calls = 10` as set in
`TaskManager.__init__`). -/
def processToolCalls (backend : Nat → Option ModelResponse) (sid : PyStr)
    (initial : ModelResponse) (st : SessionStore) :
    Option ModelResponse × SessionStore :=
  toolLoopGo backend sid 10 0 initial st

/-- Result of workflow C: success flag, error message, and the response
content to be delivered (`result["response"]["content"]`). -/
structure CResult where
  success : Bool
  errorMsg : Option PyStr
  responseContent : Option PyStr
deriving DecidableEq, Repr

/-- `TaskManager._workflow_c`: missing session id or unknown session yield
error results; a `None` first model response yields the error result
`模型服务调用失败` WITHOUT cleaning up the session; otherwise the tool loop
runs, `cleanup_session` removes the session, and the extracted content is
returned.  (`backend0` is the first `_call_model_service` result, `backend`
the oracle for repeat calls inside the loop.) -/
def workflowC (backend0 : Option ModelResponse) (backend : Nat → Option ModelResponse)
    (st : SessionStore) (sessionId : Option PyStr) : CResult × SessionStore :=
  match sessionId with
  | none =>
    ({ success := false
       errorMsg := some ("缺少session_id或session_manager未初始化".data)
       responseContent := none }, st)
  | some sid =>
    match lookupSession st sid with
    | none =>
      ({ success := false
         errorMsg := some (("获取会话失败: 会话不存在: ".data) ++ sid)
         responseContent := none }, st)
    | some _ =>
      match backend0 with
      | none =>
        ({ success := false
           errorMsg := some ("模型服务调用失败".data)
           responseContent := none }, st)
      | some r0 =>
        let res := processToolCalls backend sid r0 st
        let st3 := cleanupSession res.2 sid
        ({ success := true
           errorMsg := none
           responseContent := some (extractResponseContent res.1) }, st3)

/-- `EssentialsManager.is_command`: the text of the message (joined with
spaces for multimodal content), stripped, must start with `#`; assistant
payloads and missing content are never commands. -/
def isCommandMsg (md : MessageData) : Bool :=
  match md.content with
  | none => false
  | some c =>
    if md.role.getD roleUser = roleAssistant then false
    else
      match c with
      | Content.str s => ("#".data).isPrefixOf (pyStrip s)
      | Content.parts l =>
        let texts := l.filterMap (fun p =>
          match p with
          | Part.text t => some t
          | Part.imageUrl _ => none)
        if texts.isEmpty then false
        else ("#".data).isPrefixOf (pyStrip (joinWithSpace texts))

/-- Result of workflow A: the context after the update and the optional
command response (`result["response"]`, present only for commands). -/
structure AResult where
  ctx : Context
  response : Option PyStr
deriving DecidableEq, Repr

/-- `TaskManager._workflow_a`: update the context (failures are logged and
ignored), then run the command short-circuit.  `execCmd` stands for
`EssentialsManager.execute_command`; the session store is passed through
untouched because workflow A never consults the session manager. -/
def workflowA (cfg : CtxConfig) (execCmd : MessageData → PyStr) (ctx : Context)
    (st : SessionStore) (md : MessageData) : AResult × SessionStore :=
  let ur := updateContext cfg ctx md
  if isCommandMsg md then
    ({ ctx := ur.ctx, response := some (execCmd md) }, st)
  else
    ({ ctx := ur.ctx, response := none }, st)

/-! ## QueueManager -/

/-- `QueueManager._determine_workflow_type`:
`task_data.get("is_respond") == True` selects workflow B, else A. -/
def determineWorkflowType (md : MessageData) : PyStr :=
  if md.isRespond = some true then ("B".data) else ("A".data)

/-- `QueueManager._validate_task_data` for the message queue: the payload
must be a non-empty dict with `chat_id` and `is_respond` keys. -/
def validMessageTask (md : MessageData) : Bool :=
  md.truthy && md.chatId.isSome && md.isRespond.isSome

/-- What a call to `enqueue_message` does: either the coroutine returns a
value (`task_id` or `None`), or it suspends indefinitely waiting for queue
space. -/
inductive EnqueueOutcome
  | returned (taskId : Option PyStr)
  | blocked
deriving DecidableEq, Repr

/-- `QueueManager.enqueue_message` against a message queue currently
holding `queueLen` tasks.  The queue is created with
`asyncio.Queue(maxsize=1000)`; `await queue.put(task)` suspends when the
queue is full and never raises `asyncio.QueueFull` (only `put_nowait`
does), so the `except asyncio.QueueFull` branch that would return `None`
is unreachable. -/
def enqueueMessage (running : Bool) (queueLen : Nat) (md : MessageData)
    (taskId : PyStr) : EnqueueOutcome :=
  if !running then EnqueueOutcome.returned none
  else if !validMessageTask md then EnqueueOutcome.returned none
  else if queueLen < 1000 then EnqueueOutcome.returned (some taskId)
  else EnqueueOutcome.blocked

/-! ## RulesManager -/

/-- Rules manager state: the parallel mode and the running flag. -/
structure RulesState where
  parallelMode : PyStr
  running : Bool
deriving DecidableEq, Repr

/-- `RulesManager.initialize`: the mode is read from
`config["system"]["rules_manager"]["mode"]` (default `wait`) and then
UNCONDITIONALLY overwritten with `wait`
(`# 在异步架构中，强制使用wait模式确保顺序`). -/
def rulesInit (configMode : Option PyStr) : RulesState :=
  let _fromConfig := configMode.getD ("wait".data)
  { parallelMode := ("wait".data), running := true }

/-- `RulesManager.set_mode`: only `all` and `wait` are accepted. -/
def rulesSetMode (rs : RulesState) (m : PyStr) : RulesState :=
  if m = ("all".data) ∨ m = ("wait".data) then
    { parallelMode := m, running := rs.running }
  else rs

/-- The workflow-B result fields `handle_workflow_b_result` reads. -/
structure BResult where
  success : Bool
  chatId : Option PyStr
  sessionId : Option PyStr
deriving DecidableEq, Repr

/-- The externally visible action taken on a workflow-B result. -/
inductive BAction
  | ignored
  | spawnedDetached
  | enqueuedModelQueue
  | unknownMode
deriving DecidableEq, Repr

/-- `RulesManager.handle_workflow_b_result`: mode `all` spawns workflow C
as a detached `asyncio.create_task`; mode `wait` enqueues it onto the
chat's model (LLM) queue. -/
def handleWorkflowBResult (rs : RulesState) (wr : BResult) : BAction :=
  if !rs.running then BAction.ignored
  else if !wr.success then BAction.ignored
  else if (wr.chatId.getD []).isEmpty || (wr.sessionId.getD []).isEmpty then
    BAction.ignored
  else if rs.parallelMode = ("all".data) then BAction.spawnedDetached
  else if rs.parallelMode = ("wait".data) then BAction.enqueuedModelQueue
  else BAction.unknownMode

/-! ## AgentCore -/

/-- `AgentCore._handle_message_result`, workflow-C branch: on success the
response content is sent; on failure an error response whose content is
`处理消息时发生错误: ` followed by the error message is sent.  The returned
value is the content delivered to the chat. -/
def handleWorkflowCResult (res : CResult) : Option PyStr :=
  if res.success then res.responseContent
  else some (("处理消息时发生错误: ".data) ++ (res.errorMsg.getD ("未知错误".data)))

/-! ## Concrete fixtures used by counterexamples and witnesses -/

/-- The frontend message of end-to-end scenario 1:
`{chat_id:"c1", content:"hi", is_respond:false}`. -/
def mdC1 : MessageData :=
  { chatId := some ("c1".data), role := none
    content := some (Content.str ("hi".data))
    message := none, isRespond := some false }

def sysDefaultMsg : Msg := mkMsg roleSystem (Content.str ("你是智能助手".data))
def userHiMsg : Msg := mkMsg roleUser (Content.str ("hi".data))
def virtualReplyMsg : Msg := mkMsg roleAssistant (Content.str ("已跳过此信息".data))

/-- A single tool call `t1` requesting `echo_tool`. -/
def tcEcho : ToolCall :=
  { id := ("t1".data), fname := ("echo_tool".data), args := [] }

/-- A model response whose first choice requests the tool call `tcEcho`. -/
def respWithToolCall : ModelResponse :=
  { choices := [{ content := none, toolCalls := some [tcEcho] }]
    topContent := none, topToolCalls := none, reprStr := [] }

/-- A model response with plain content `done`. -/
def respDone : ModelResponse :=
  { choices := [{ content := some ("done".data), toolCalls := none }]
    topContent := none, topToolCalls := none, reprStr := [] }

/-- A session whose transcript so far is a single user message. -/
def sessUserHi : Session := { messages := [userHiMsg], toolCallCount := 0 }

/-- A session store holding only `sessUserHi` under id `s1`. -/
def storeS1 : SessionStore := [((("s1".data) : PyStr), sessUserHi)]

/-- A successful workflow-B result for chat `c1`, session `s1`. -/
def bResultOk : BResult :=
  { success := true, chatId := some ("c1".data), sessionId := some ("s1".data) }

def uAMsg : Msg := mkMsg roleUser (Content.str ("A".data))
def a1Msg : Msg := mkMsg roleAssistant (Content.str ("a1".data))
def t1Msg : Msg :=
  { role := roleTool, content := Content.str ("b2".data)
    toolCalls := [], toolCallId := some ("t1".data), name := some ("echo_tool".data) }
def uBMsg : Msg := mkMsg roleUser (Content.str ("B".data))

/-! ## Helper lemmas -/

/-- `List.filterMap` of the constantly-`none` tool executor is empty. -/
theorem filterMap_executeToolCall (l : List ToolCall) :
    l.filterMap executeToolCall = [] := by
  induction l with
  | nil => rfl
  | cons a t ih => simp [List.filterMap_cons, executeToolCall, ih]

/-- Because `_execute_tool_call` always returns `None`, the tool loop
returns the response it was given and leaves the session store alone. -/
theorem processToolCalls_noop (backend : Nat → Option ModelResponse) (sid : PyStr)
    (initial : ModelResponse) (st : SessionStore) :
    processToolCalls backend sid initial st = (some initial, st) := by
  show toolLoopGo backend sid (9 + 1) 0 initial st = (some initial, st)
  simp only [toolLoopGo]
  by_cases h : hasToolCallsResp initial
  · simp only [h, if_true]
    by_cases h2 : (extractToolCalls initial).isEmpty
    · simp [h2]
    · simp [h2, filterMap_executeToolCall]
  · simp [h]

/-- `find?` over the entry-replacing map of `updateSession` is the mapped
`find?`: the replacement keeps every key. -/
theorem find?_map_setEntry (st : SessionStore) (sid : PyStr) (s2 : Session) :
    (st.map (fun e => if e.1 = sid then (e.1, s2) else e)).find?
        (fun e => decide (e.1 = sid))
      = (st.find? (fun e => decide (e.1 = sid))).map
          (fun e => if e.1 = sid then (e.1, s2) else e) := by
  have hpred : ((fun e => decide (e.1 = sid)) ∘ fun e => if e.1 = sid then (e.1, s2) else e)
      = (fun (e : PyStr × Session) => decide (e.1 = sid)) := by
    funext e
    by_cases h1 : e.1 = sid <;> simp [Function.comp, h1]
  rw [List.find?_map, hpred]

/-- `update_session` on a present session succeeds and appends exactly the
given tool results, bumping `tool_call_count` by their number. -/
theorem lookupSession_updateSession (st : SessionStore) (sid : PyStr) (s : Session)
    (toolResults : List Msg) (h : lookupSession st sid = some s) :
    (updateSession st sid toolResults).1 = true ∧
    lookupSession (updateSession st sid toolResults).2 sid
      = some { messages := s.messages ++ toolResults
               toolCallCount := s.toolCallCount + toolResults.length } := by
  rcases Option.map_eq_some'.mp h with ⟨e0, he0, he02⟩
  have he01 : e0.1 = sid := by simpa using List.find?_some he0
  constructor
  · simp [updateSession, h]
  · simp only [updateSession, h]
    unfold lookupSession
    rw [find?_map_setEntry, he0]
    simp [he01, he02]

/-- Counting user messages distributes over cons. -/
theorem userCount_cons (m : Msg) (l : List Msg) :
    userCount (m :: l) = (if m.role = roleUser then 1 else 0) + userCount l := by
  simp only [userCount, List.filter_cons]
  split <;> simp_all [Nat.add_comm]

/-- Counting user messages distributes over append. -/
theorem userCount_append (l1 l2 : List Msg) :
    userCount (l1 ++ l2) = userCount l1 + userCount l2 := by
  simp [userCount, List.filter_append]

theorem roleSystem_ne_user : ¬ (roleSystem = roleUser) := by decide
theorem roleAssistant_ne_user : ¬ (roleAssistant = roleUser) := by decide

/-- Trimming is the identity when the user count is within the limit. -/
theorem trimMessages_of_le (L : Nat) (msgs : List Msg) (h : userCount msgs ≤ L) :
    trimMessages L msgs = msgs := by
  simp [trimMessages, h]

/-- The trimming loop removes exactly `min toRemove (userCount msgs)` user
messages: every deleted dialogue round holds exactly one user message. -/
theorem trimGo_userCount (msgs : List Msg) : ∀ (sk : Bool) (t : Nat),
    userCount (trimGo sk t msgs) = userCount msgs - t := by
  induction msgs with
  | nil => intro sk t; simp [trimGo, userCount]
  | cons m rest ih =>
    intro sk t
    have hrfl : trimGo sk t (m :: rest)
        = (if (sk && isAssistantMsg m) = true then trimGo true t rest
           else if t = 0 then m :: rest
           else if m.role = roleSystem then m :: trimGo false t rest
           else if m.role = roleUser then trimGo true (t - 1) rest
           else trimGo false t rest) := rfl
    by_cases h1 : (sk && isAssistantMsg m) = true
    · have hm : m.role = roleAssistant := by
        have h1' := (Bool.and_eq_true _ _).mp h1
        simpa [isAssistantMsg] using h1'.2
      rw [hrfl, if_pos h1, ih, userCount_cons, hm, if_neg roleAssistant_ne_user]
      omega
    · by_cases h2 : t = 0
      · rw [hrfl, if_neg h1, if_pos h2, h2]
        omega
      · by_cases h3 : m.role = roleSystem
        · rw [hrfl, if_neg h1, if_neg h2, if_pos h3, userCount_cons, userCount_cons, ih, h3,
            if_neg roleSystem_ne_user]
          omega
        · by_cases h4 : m.role = roleUser
          · rw [hrfl, if_neg h1, if_neg h2, if_neg h3, if_pos h4, ih, userCount_cons, if_pos h4]
            omega
          · rw [hrfl, if_neg h1, if_neg h2, if_neg h3, if_neg h4, ih, userCount_cons, if_neg h4]
            omega

/-- After `_trim_context_messages`, the user count is the minimum of the
previous count and the limit. -/
theorem trimMessages_userCount (L : Nat) (msgs : List Msg) :
    userCount (trimMessages L msgs) = min (userCount msgs) L := by
  unfold trimMessages
  split
  · omega
  · rw [trimGo_userCount]
    omega

/-! ## Dialogue-round well-formedness (for claim C6) -/

/-- No orphans: scanning left to right with `seen` = "a user message has
occurred", every assistant or tool message must be preceded by some user
message. -/
def noOrphans (seen : Bool) : List Msg → Bool
  | [] => true
  | m :: r =>
    if m.role = roleUser then noOrphans true r
    else if m.role = roleAssistant ∨ m.role = roleTool then seen && noOrphans seen r
    else noOrphans seen r

/-- Whether some message has the user role. -/
def hasUser (msgs : List Msg) : Bool := msgs.any (fun m => m.role = roleUser)

/-- Every role is system, user, or assistant (the roles `update_context`
itself ever appends). -/
def RolesSUA (msgs : List Msg) : Prop :=
  ∀ m ∈ msgs, m.role = roleSystem ∨ m.role = roleUser ∨ m.role = roleAssistant

/-- System messages only occur as a prefix (they are created at position 0
and never appended after other roles). -/
def SysFront (msgs : List Msg) : Prop :=
  List.Pairwise (fun a b => b.role = roleSystem → a.role = roleSystem) msgs

/-- Well-formed context transcript: the reachable shape of
`context.data.messages`. -/
def WFCtx (msgs : List Msg) : Prop :=
  RolesSUA msgs ∧ SysFront msgs ∧ noOrphans false msgs = true

theorem roleUser_ne_system : ¬ (roleUser = roleSystem) := by decide
theorem roleAssistant_ne_system : ¬ (roleAssistant = roleSystem) := by decide
theorem roleTool_ne_user : ¬ (roleTool = roleUser) := by decide

/-- In skip mode the trimming loop just consumes the contiguous assistant
run and then behaves like the normal loop. -/
theorem trimGo_skip (t : Nat) (rest : List Msg) :
    trimGo true t rest = trimGo false t (rest.dropWhile isAssistantMsg) := by
  induction rest with
  | nil => rfl
  | cons m r ih =>
    by_cases ha : isAssistantMsg m = true
    · have h1 : trimGo true t (m :: r) = trimGo true t r := by
        have : (true && isAssistantMsg m) = true := by simp [ha]
        simp only [trimGo, this, if_true]
      rw [h1, ih, List.dropWhile_cons_of_pos ha]
    · have hstop : (m :: r).dropWhile isAssistantMsg = m :: r := by
        simp [List.dropWhile_cons, ha]
      rw [hstop]
      have e1 : trimGo true t (m :: r)
          = (if t = 0 then m :: r
             else if m.role = roleSystem then m :: trimGo false t r
             else if m.role = roleUser then trimGo true (t - 1) r
             else trimGo false t r) := by
        have hc : (true && isAssistantMsg m) = false := by simp [ha]
        simp only [trimGo, hc, Bool.false_eq_true, if_false]
      have e2 : trimGo false t (m :: r)
          = (if t = 0 then m :: r
             else if m.role = roleSystem then m :: trimGo false t r
             else if m.role = roleUser then trimGo true (t - 1) r
             else trimGo false t r) := by
        have hc : (false && isAssistantMsg m) = false := by simp
        simp only [trimGo, hc, Bool.false_eq_true, if_false]
      rw [e1, e2]

/-- The trimming loop only deletes messages (its result is a sublist). -/
theorem trimGo_sublist (msgs : List Msg) : ∀ (sk : Bool) (t : Nat),
    List.Sublist (trimGo sk t msgs) msgs := by
  induction msgs with
  | nil => intro sk t; simp [trimGo]
  | cons m rest ih =>
    intro sk t
    have hrfl : trimGo sk t (m :: rest)
        = (if (sk && isAssistantMsg m) = true then trimGo true t rest
           else if t = 0 then m :: rest
           else if m.role = roleSystem then m :: trimGo false t rest
           else if m.role = roleUser then trimGo true (t - 1) rest
           else trimGo false t rest) := rfl
    rw [hrfl]
    by_cases h1 : (sk && isAssistantMsg m) = true
    · rw [if_pos h1]; exact (ih true t).cons m
    · rw [if_neg h1]
      by_cases h2 : t = 0
      · rw [if_pos h2]
      · rw [if_neg h2]
        by_cases h3 : m.role = roleSystem
        · rw [if_pos h3]; exact (ih false t).cons₂ m
        · rw [if_neg h3]
          by_cases h4 : m.role = roleUser
          · rw [if_pos h4]; exact (ih true (t - 1)).cons m
          · rw [if_neg h4]; exact (ih false t).cons m

/-- `noOrphans` splits over append: the right part is scanned with the
`seen` flag raised iff the left part contains a user message. -/
theorem noOrphans_append (l1 l2 : List Msg) : ∀ seen,
    noOrphans seen (l1 ++ l2)
      = (noOrphans seen l1 && noOrphans (seen || hasUser l1) l2) := by
  induction l1 with
  | nil => intro seen; simp [noOrphans, hasUser]
  | cons m r ih =>
    intro seen
    have hany : hasUser (m :: r) = (decide (m.role = roleUser) || hasUser r) := by
      simp [hasUser, List.any_cons]
    by_cases hu : m.role = roleUser
    · have e : ∀ (s : Bool) (l : List Msg),
          noOrphans s (m :: l) = noOrphans true l := by
        intro s l
        simp only [noOrphans]
        rw [if_pos hu]
      rw [List.cons_append, e seen, ih true, e seen r, hany]
      simp [hu]
    · by_cases hat : m.role = roleAssistant ∨ m.role = roleTool
      · have e : ∀ (s : Bool) (l : List Msg),
            noOrphans s (m :: l) = (s && noOrphans s l) := by
          intro s l
          simp only [noOrphans]
          rw [if_neg hu, if_pos hat]
        rw [List.cons_append, e seen, ih seen, e seen r, hany]
        simp [hu, Bool.and_assoc]
      · have e : ∀ (s : Bool) (l : List Msg),
            noOrphans s (m :: l) = noOrphans s l := by
          intro s l
          simp only [noOrphans]
          rw [if_neg hu, if_neg hat]
        rw [List.cons_append, e seen, ih seen, e seen r, hany]
        simp [hu]

/-- With the `seen` flag raised, leading assistants are transparent to the
orphan scan. -/
theorem noOrphans_true_dropWhile (l : List Msg) :
    noOrphans true l = noOrphans true (l.dropWhile isAssistantMsg) := by
  induction l with
  | nil => rfl
  | cons m r ih =>
    by_cases ha : isAssistantMsg m = true
    · have hass : m.role = roleAssistant := by simpa [isAssistantMsg] using ha
      have hu : ¬ m.role = roleUser := by rw [hass]; exact roleAssistant_ne_user
      have e : noOrphans true (m :: r) = noOrphans true r := by
        simp only [noOrphans]
        rw [if_neg hu, if_pos (Or.inl hass)]
        simp
      rw [e, ih, List.dropWhile_cons_of_pos ha]
    · rw [List.dropWhile_cons_of_neg (by simpa using ha)]

/-- The head of `dropWhile p` does not satisfy `p`. -/
theorem dropWhile_head_not {α : Type} (p : α → Bool) (l : List α) (h0 : α) (d : List α)
    (h : l.dropWhile p = h0 :: d) : p h0 = false := by
  induction l with
  | nil => simp [List.dropWhile] at h
  | cons a t ih =>
    by_cases hp : p a = true
    · rw [List.dropWhile_cons_of_pos hp] at h
      exact ih h
    · rw [List.dropWhile_cons_of_neg (by simpa using hp)] at h
      injection h with h1 h2
      subst h1
      simpa using hp

/-- A positive user count means some user message exists. -/
theorem hasUser_of_userCount (l : List Msg) (h : 0 < userCount l) :
    hasUser l = true := by
  induction l with
  | nil => simp [userCount] at h
  | cons m r ih =>
    by_cases hu : m.role = roleUser
    · simp [hasUser, List.any_cons, hu]
    · rw [userCount_cons, if_neg hu, Nat.zero_add] at h
      have hr := ih h
      unfold hasUser at hr ⊢
      simp [List.any_cons, hr]

/-- On a well-formed transcript the trimming loop (started in normal mode)
preserves well-formedness: every removal is a whole round, so no orphan is
created. -/
theorem trimGo_wf : ∀ (n : Nat) (msgs : List Msg), msgs.length ≤ n →
    ∀ t, WFCtx msgs → WFCtx (trimGo false t msgs) := by
  intro n
  induction n with
  | zero =>
    intro msgs hlen t hwf
    have hnil : msgs = [] := List.eq_nil_of_length_eq_zero (Nat.le_zero.mp hlen)
    subst hnil
    simpa [trimGo] using hwf
  | succ n ih =>
    intro msgs hlen t hwf
    match msgs with
    | [] => simpa [trimGo] using hwf
    | m :: rest =>
      have hc : (false && isAssistantMsg m) = false := by simp
      by_cases h2 : t = 0
      · have hstep : trimGo false t (m :: rest) = m :: rest := by
          simp only [trimGo, hc, Bool.false_eq_true, if_false, if_pos h2]
        rw [hstep]; exact hwf
      · obtain ⟨hroles, hfront, horph⟩ := hwf
        have hlen' : rest.length ≤ n := by
          simp only [List.length_cons] at hlen
          omega
        rcases hroles m (List.mem_cons_self m rest) with hsys | huser | hass
        · -- system head: kept, recurse on the tail
          have hstep : trimGo false t (m :: rest) = m :: trimGo false t rest := by
            simp only [trimGo, hc, Bool.false_eq_true, if_false, if_neg h2, if_pos hsys]
          rw [hstep]
          have horr : noOrphans false rest = true := by
            have e : noOrphans false (m :: rest) = noOrphans false rest := by
              simp only [noOrphans]
              rw [if_neg (by rw [hsys]; exact roleSystem_ne_user),
                if_neg (by rw [hsys]; exact (by decide :
                  ¬ (roleSystem = roleAssistant ∨ roleSystem = roleTool)))]
            rw [← e]; exact horph
          have hrec := ih rest hlen' t
            ⟨fun x hx => hroles x (List.mem_cons_of_mem m hx),
             (List.pairwise_cons.mp hfront).2, horr⟩
          obtain ⟨hr1, hr2, hr3⟩ := hrec
          refine ⟨?_, ?_, ?_⟩
          · intro x hx
            rcases List.mem_cons.mp hx with rfl | hx2
            · exact Or.inl hsys
            · exact hr1 x hx2
          · exact List.pairwise_cons.mpr ⟨fun b _ _ => hsys, hr2⟩
          · have e : noOrphans false (m :: trimGo false t rest)
                = noOrphans false (trimGo false t rest) := by
              simp only [noOrphans]
              rw [if_neg (by rw [hsys]; exact roleSystem_ne_user),
                if_neg (by rw [hsys]; exact (by decide :
                  ¬ (roleSystem = roleAssistant ∨ roleSystem = roleTool)))]
            rw [e]; exact hr3
        · -- user head: the whole round is removed, recurse past it
          have hns : ¬ m.role = roleSystem := by
            rw [huser]; exact roleUser_ne_system
          have hstep : trimGo false t (m :: rest) = trimGo true (t - 1) rest := by
            simp only [trimGo, hc, Bool.false_eq_true, if_false, if_neg h2,
              if_neg hns, if_pos huser]
          rw [hstep, trimGo_skip]
          have hd_sub : List.Sublist (rest.dropWhile isAssistantMsg) rest :=
            (List.dropWhile_suffix isAssistantMsg).sublist
          have hdlen : (rest.dropWhile isAssistantMsg).length ≤ n :=
            le_trans hd_sub.length_le hlen'
          apply ih _ hdlen (t - 1)
          have htail : noOrphans true rest = true := by
            have e : noOrphans false (m :: rest) = noOrphans true rest := by
              simp only [noOrphans]
              rw [if_pos huser]
            rw [← e]; exact horph
          have hdorph : noOrphans false (rest.dropWhile isAssistantMsg) = true := by
            have htrue : noOrphans true (rest.dropWhile isAssistantMsg) = true := by
              rw [← noOrphans_true_dropWhile]; exact htail
            cases hd : rest.dropWhile isAssistantMsg with
            | nil => simp [noOrphans]
            | cons h0 d =>
              have h0mem : h0 ∈ rest := hd_sub.subset (hd ▸ List.mem_cons_self h0 d)
              have h0notass : isAssistantMsg h0 = false :=
                dropWhile_head_not isAssistantMsg rest h0 d hd
              have h0nsys : ¬ h0.role = roleSystem := by
                intro hcon
                have hr := (List.pairwise_cons.mp hfront).1 h0 h0mem hcon
                exact roleUser_ne_system (huser ▸ hr)
              have h0user : h0.role = roleUser := by
                rcases hroles h0 (List.mem_cons_of_mem m h0mem) with h | h | h
                · exact absurd h h0nsys
                · exact h
                · exact absurd h (by simpa [isAssistantMsg] using h0notass)
              have e : noOrphans false (h0 :: d) = noOrphans true d := by
                simp only [noOrphans]
                rw [if_pos h0user]
              have e2 : noOrphans true (h0 :: d) = noOrphans true d := by
                simp only [noOrphans]
                rw [if_pos h0user]
              rw [e]
              rw [hd, e2] at htrue
              exact htrue
          refine ⟨?_, ?_, hdorph⟩
          · exact fun x hx =>
              hroles x (List.mem_cons_of_mem m (hd_sub.subset hx))
          · exact ((List.pairwise_cons.mp hfront).2).sublist hd_sub
        · -- assistant head contradicts no-orphans with the flag down
          exfalso
          have e : noOrphans false (m :: rest) = false := by
            simp only [noOrphans]
            rw [if_neg (by rw [hass]; exact roleAssistant_ne_user),
              if_pos (Or.inl hass)]
            simp
          rw [e] at horph
          exact Bool.false_ne_true horph

/-- `_trim_context_messages` preserves well-formedness. -/
theorem trimMessages_wf (L : Nat) (msgs : List Msg) (h : WFCtx msgs) :
    WFCtx (trimMessages L msgs) := by
  unfold trimMessages
  split
  · exact h
  · exact trimGo_wf msgs.length msgs (Nat.le_refl _) _ h

/-- One pass of the trimming loop past a system prefix removes exactly one
whole round: the oldest user message together with the contiguous run of
assistant messages after it. -/
theorem trimGo_removes_round : ∀ (s : List Msg), (∀ m ∈ s, m.role = roleSystem) →
    ∀ (u : Msg), u.role = roleUser → ∀ (rest : List Msg) (t : Nat),
    trimGo false (t + 1) (s ++ u :: rest)
      = s ++ trimGo false t (rest.dropWhile isAssistantMsg) := by
  intro s
  induction s with
  | nil =>
    intro _ u hu rest t
    have hns : ¬ u.role = roleSystem := by rw [hu]; exact roleUser_ne_system
    have hc : (false && isAssistantMsg u) = false := by simp
    have e : trimGo false (t + 1) (u :: rest) = trimGo true t rest := by
      simp only [trimGo, hc, Bool.false_eq_true, if_false,
        if_neg (Nat.succ_ne_zero t), if_neg hns, if_pos hu, Nat.add_sub_cancel]
    rw [List.nil_append, e, trimGo_skip, List.nil_append]
  | cons s0 s' ih =>
    intro hs u hu rest t
    have hs0 : s0.role = roleSystem := hs s0 (List.mem_cons_self s0 s')
    have hc : (false && isAssistantMsg s0) = false := by simp
    have e : trimGo false (t + 1) (s0 :: (s' ++ u :: rest))
        = s0 :: trimGo false (t + 1) (s' ++ u :: rest) := by
      simp only [trimGo, hc, Bool.false_eq_true, if_false,
        if_neg (Nat.succ_ne_zero t), if_pos hs0]
    rw [List.cons_append, e, ih (fun m hm => hs m (List.mem_cons_of_mem s0 hm)) u hu rest t,
      List.cons_append]

/-- Appending a user message and optionally the virtual assistant reply
preserves well-formedness. -/
theorem wf_append_user_round (msgs : List Msg) (c : Content) (vtext : PyStr) (b : Bool)
    (hwf : WFCtx msgs) :
    WFCtx (msgs ++ ([mkMsg roleUser c] ++
      (if b then [mkMsg roleAssistant (Content.str vtext)] else []))) := by
  obtain ⟨hr, hf, ho⟩ := hwf
  have htail2 : ∀ x ∈ ([mkMsg roleUser c] ++
      (if b then [mkMsg roleAssistant (Content.str vtext)] else [])),
      x.role = roleUser ∨ x.role = roleAssistant := by
    intro x hx
    cases b with
    | false =>
      rw [if_neg (by simp)] at hx
      rw [List.append_nil, List.mem_singleton] at hx
      subst hx
      exact Or.inl rfl
    | true =>
      rw [if_pos rfl] at hx
      rcases List.mem_append.mp hx with hx1 | hx1 <;>
        rw [List.mem_singleton] at hx1 <;> subst hx1
      · exact Or.inl rfl
      · exact Or.inr rfl
  refine ⟨?_, ?_, ?_⟩
  · intro x hx
    rcases List.mem_append.mp hx with hx1 | hx2
    · exact hr x hx1
    · rcases htail2 x hx2 with h | h
      · exact Or.inr (Or.inl h)
      · exact Or.inr (Or.inr h)
  · refine List.pairwise_append.mpr ⟨hf, ?_, ?_⟩
    · cases b with
      | false =>
        rw [if_neg (by simp), List.append_nil]
        exact List.pairwise_singleton _ _
      | true =>
        rw [if_pos rfl]
        refine List.pairwise_cons.mpr ⟨?_, List.pairwise_singleton _ _⟩
        intro x hx hcon
        have hx2 : x = mkMsg roleAssistant (Content.str vtext) := by simpa using hx
        subst hx2
        exact absurd hcon roleAssistant_ne_system
    · intro a _ x hx hcon
      rcases htail2 x hx with h | h
      · rw [h] at hcon
        exact (roleUser_ne_system hcon).elim
      · rw [h] at hcon
        exact (roleAssistant_ne_system hcon).elim
  · rw [noOrphans_append, ho]
    have e : ∀ s : Bool, noOrphans s (mkMsg roleUser c ::
        (if b then [mkMsg roleAssistant (Content.str vtext)] else [])) = true := by
      intro s
      cases b with
      | false =>
        rw [if_neg (by simp)]
        simp [noOrphans, mkMsg]
      | true =>
        rw [if_pos rfl]
        simp [noOrphans, mkMsg, roleAssistant_ne_user]
    simp [e]

/-- `update_context` preserves well-formedness, provided an assistant
entry is only appended once the chat already holds a user message. -/
theorem updateContext_wf (cfg : CtxConfig) (ctx : Context) (md : MessageData)
    (hwf : WFCtx ctx.messages)
    (hass : md.role.getD roleUser = roleAssistant → 0 < userCount ctx.messages) :
    WFCtx ((updateContext cfg ctx md).ctx.messages) := by
  by_cases hrole : md.role.getD roleUser = roleAssistant
  · simp only [updateContext, hrole, if_true]
    apply trimMessages_wf
    cases hm : md.message with
    | none => exact hwf
    | some am =>
      show WFCtx (if am.role = roleAssistant then ctx.messages ++ [am] else ctx.messages)
      by_cases ha : am.role = roleAssistant
      · rw [if_pos ha]
        obtain ⟨hr, hf, ho⟩ := hwf
        refine ⟨?_, ?_, ?_⟩
        · intro x hx
          rcases List.mem_append.mp hx with hx1 | hx2
          · exact hr x hx1
          · rw [List.mem_singleton.mp hx2]
            exact Or.inr (Or.inr ha)
        · refine List.pairwise_append.mpr ⟨hf, List.pairwise_singleton _ _, ?_⟩
          intro a _ b hb
          rw [List.mem_singleton.mp hb]
          intro hcon
          exact absurd hcon (by rw [ha]; exact roleAssistant_ne_system)
        · rw [noOrphans_append, ho, hasUser_of_userCount _ (hass hrole)]
          have e : noOrphans true [am] = true := by
            simp only [noOrphans]
            rw [if_neg (by rw [ha]; exact roleAssistant_ne_user), if_pos (Or.inl ha)]
            simp [noOrphans]
          simp [e]
      · rw [if_neg ha]
        exact hwf
  · cases hex : extractMessageContent md with
    | none =>
      simp only [updateContext, hrole, if_false, hex]
      exact hwf
    | some c =>
      by_cases htr : pyTruthyContent c = true
      · simp only [updateContext, hrole, if_false, hex, htr, if_true]
        apply trimMessages_wf
        rw [List.append_assoc]
        exact wf_append_user_round ctx.messages c cfg.virtualReplyText
          cfg.virtualReplyEnabled hwf
      · simp only [updateContext, hrole, if_false, hex, htr, if_false]
        exact hwf

/-! ## Lemmas about `pyReplace`, `pyStrip` and the system message (C8) -/

/-- The scanner of `pyReplace` with `skip ≥ |l|` consumes everything. -/
theorem pyReplaceAux_skip_ge (p r : PyStr) :
    ∀ (l : PyStr) (k : Nat), l.length ≤ k → pyReplaceAux p r k l = [] := by
  intro l
  induction l with
  | nil => intro k _; cases k <;> rfl
  | cons c t ih =>
    intro k hk
    cases k with
    | zero => simp at hk
    | succ k2 => exact ih k2 (by simpa using hk)

/-- When the only occurrence of the non-empty pattern `p` in `pre ++ p` is
the final one, the replace scanner removes exactly that occurrence. -/
theorem pyReplaceAux_only_final (p : PyStr) (hp : p ≠ []) :
    ∀ (pre : PyStr), (¬ p <:+: (pre ++ p).dropLast) →
    pyReplaceAux p [] 0 (pre ++ p) = pre := by
  intro pre
  induction pre with
  | nil =>
    intro _
    rw [List.nil_append]
    cases hc : p with
    | nil => exact absurd hc hp
    | cons c t =>
      subst hc
      have hpre : (c :: t).isPrefixOf (c :: t) = true :=
        List.isPrefixOf_iff_prefix.mpr (List.prefix_refl _)
      have e : pyReplaceAux (c :: t) [] 0 (c :: t)
          = if (c :: t).isPrefixOf (c :: t) then
              [] ++ pyReplaceAux (c :: t) [] ((c :: t).length - 1) t
            else c :: pyReplaceAux (c :: t) [] 0 t := rfl
      rw [e, if_pos hpre, List.nil_append]
      exact pyReplaceAux_skip_ge _ _ t ((c :: t).length - 1) (by simp)
  | cons c0 pre' ih =>
    intro h
    have hlist : (c0 :: pre') ++ p = c0 :: (pre' ++ p) := rfl
    have hne : pre' ++ p ≠ [] := by simp [hp]
    have hnp : ¬ (p.isPrefixOf (c0 :: (pre' ++ p)) = true) := by
      intro hcon
      have hpref : p <+: c0 :: (pre' ++ p) := List.isPrefixOf_iff_prefix.mp hcon
      apply h
      have hlen : p.length ≤ (c0 :: (pre' ++ p)).length - 1 := by
        simp [List.length_append]
      have hptake : p <+: (c0 :: (pre' ++ p)).dropLast := by
        rw [List.dropLast_eq_take]
        exact List.prefix_take_iff.mpr ⟨hpref, hlen⟩
      exact hptake.isInfix
    have e : pyReplaceAux p [] 0 (c0 :: (pre' ++ p))
        = if p.isPrefixOf (c0 :: (pre' ++ p)) then
            [] ++ pyReplaceAux p [] (p.length - 1) (pre' ++ p)
          else c0 :: pyReplaceAux p [] 0 (pre' ++ p) := rfl
    rw [hlist, e, if_neg hnp]
    congr 1
    apply ih
    intro hcon
    apply h
    rw [hlist, List.dropLast_cons_of_ne_nil hne]
    exact List.infix_cons hcon

/-- `s.replace(p, "")` on `pre ++ p` whose only occurrence of `p` is the
final one yields `pre`. -/
theorem pyReplace_only_final (p pre : PyStr) (hp : p ≠ [])
    (h : ¬ p <:+: (pre ++ p).dropLast) :
    pyReplace (pre ++ p) p [] = pre := by
  unfold pyReplace
  rw [if_neg (by simpa [List.isEmpty_iff] using hp)]
  exact pyReplaceAux_only_final p hp pre h

/-- A list fixed by `dropWhile p` has a head not satisfying `p`. -/
theorem dropWhile_eq_self_head {α : Type} (p : α → Bool) (c : α) (t : List α)
    (h : (c :: t).dropWhile p = c :: t) : p c = false := by
  by_cases hp : p c = true
  · rw [List.dropWhile_cons_of_pos hp] at h
    have hlen := congrArg List.length h
    have hle := length_dropWhile_le' p t
    simp at hlen
    omega
  · simpa using hp

/-- A string fixed by `strip` is fixed by both one-sided trims. -/
theorem pyStrip_eq_self_parts (x : PyStr) (h : pyStrip x = x) :
    x.dropWhile isPySpace = x ∧ x.reverse.dropWhile isPySpace = x.reverse := by
  unfold pyStrip at h
  have l1 : (x.dropWhile isPySpace).length ≤ x.length :=
    (List.dropWhile_suffix _).length_le
  have l2 : ((x.dropWhile isPySpace).reverse.dropWhile isPySpace).length
      ≤ (x.dropWhile isPySpace).length := by
    calc ((x.dropWhile isPySpace).reverse.dropWhile isPySpace).length
        ≤ (x.dropWhile isPySpace).reverse.length := (List.dropWhile_suffix _).length_le
      _ = (x.dropWhile isPySpace).length := List.length_reverse _
  have lh : ((x.dropWhile isPySpace).reverse.dropWhile isPySpace).length = x.length := by
    have := congrArg List.length h
    rwa [List.length_reverse] at this
  have e1 : x.dropWhile isPySpace = x :=
    (List.dropWhile_suffix _).eq_of_length (by omega)
  refine ⟨e1, ?_⟩
  have e2 : (x.dropWhile isPySpace).reverse.dropWhile isPySpace
      = (x.dropWhile isPySpace).reverse :=
    (List.dropWhile_suffix _).eq_of_length (by rw [List.length_reverse]; omega)
  rw [e1] at e2
  exact e2

/-- Appending a newline to a non-empty strip-fixed string strips back to
the string itself. -/
theorem pyStrip_append_newline (x : PyStr) (hx : pyStrip x = x) (hne : x ≠ []) :
    pyStrip (x ++ ("\n".data)) = x := by
  obtain ⟨h1, h2⟩ := pyStrip_eq_self_parts x hx
  cases x with
  | nil => exact absurd rfl hne
  | cons c t =>
    have hc : isPySpace c = false := dropWhile_eq_self_head _ c t h1
    unfold pyStrip
    have e1 : ((c :: t) ++ ("\n".data)).dropWhile isPySpace = (c :: t) ++ ("\n".data) := by
      rw [show (c :: t) ++ ("\n".data) = c :: (t ++ ("\n".data)) from rfl]
      exact List.dropWhile_cons_of_neg (by simp [hc])
    rw [e1]
    have e2 : ((c :: t) ++ ("\n".data)).reverse = '\n' :: (c :: t).reverse := by
      rw [List.reverse_append]
      rfl
    rw [e2, List.dropWhile_cons_of_pos (by decide), h2, List.reverse_reverse]

/-- After `setSystemContent`, the first system message found carries the
new content. -/
theorem find?_setSystemContent (c : PyStr) : ∀ (msgs : List Msg),
    ∃ m', (setSystemContent msgs c).find? (fun m => m.role = roleSystem) = some m'
      ∧ m'.role = roleSystem ∧ m'.content = Content.str c := by
  intro msgs
  induction msgs with
  | nil =>
    refine ⟨mkMsg roleSystem (Content.str c), ?_, rfl, rfl⟩
    rw [show setSystemContent [] c = [mkMsg roleSystem (Content.str c)] from rfl]
    exact List.find?_cons_of_pos _ (by simp [mkMsg])
  | cons m rest ih =>
    by_cases hm : m.role = roleSystem
    · refine ⟨{ role := m.role, content := Content.str c, toolCalls := m.toolCalls
                toolCallId := m.toolCallId, name := m.name }, ?_, hm, rfl⟩
      have e : setSystemContent (m :: rest) c
          = { role := m.role, content := Content.str c, toolCalls := m.toolCalls
              toolCallId := m.toolCallId, name := m.name } :: rest := by
        unfold setSystemContent replaceFirstSystem
        rw [if_pos hm]
      rw [e]
      exact List.find?_cons_of_pos _ (by simp [hm])
    · obtain ⟨m', hfind, hrole, hcontent⟩ := ih
      refine ⟨m', ?_, hrole, hcontent⟩
      cases hrep : replaceFirstSystem c rest with
      | none =>
        have e : setSystemContent (m :: rest) c
            = mkMsg roleSystem (Content.str c) :: (m :: rest) := by
          unfold setSystemContent replaceFirstSystem
          rw [if_neg hm, hrep]
          rfl
        have e2 : setSystemContent rest c = mkMsg roleSystem (Content.str c) :: rest := by
          unfold setSystemContent
          rw [hrep]
        rw [e, List.find?_cons_of_pos _ (by simp [mkMsg])]
        rw [e2, List.find?_cons_of_pos _ (by simp [mkMsg])] at hfind
        exact hfind
      | some rest2 =>
        have e : setSystemContent (m :: rest) c = m :: rest2 := by
          unfold setSystemContent replaceFirstSystem
          rw [if_neg hm, hrep]
          rfl
        have e2 : setSystemContent rest c = rest2 := by
          unfold setSystemContent
          rw [hrep]
        rw [e, List.find?_cons_of_neg _ (by simp [hm])]
        rw [e2] at hfind
        exact hfind

/-! ## The claims -/

/-- C4 (code_bug evaluation): with the per-chat message queue already at
its capacity of 1000, the next `enqueue_message` call on a valid payload
suspends inside `await queue.put(task)` rather than returning `None`: the
`except asyncio.QueueFull` branch is unreachable because `Queue.put`
waits instead of raising. -/
theorem c4_enqueue_at_capacity_blocks :
    validMessageTask mdC1 = true ∧
    enqueueMessage true 1000 mdC1 ("task_1001".data) = EnqueueOutcome.blocked ∧
    enqueueMessage true 1000 mdC1 ("task_1001".data) ≠ EnqueueOutcome.returned none ∧
    enqueueMessage true 999 mdC1 ("task_1001".data)
      = EnqueueOutcome.returned (some ("task_1001".data)) := by
  decide

/-- C10 (counterexample): with the configuration mode set to `all`,
`initialize` still leaves the mode at `wait`, and handling a successful
workflow-B result enqueues workflow C onto the model queue instead of
spawning it as a detached task. -/
theorem c10_counterexample :
    (rulesInit (some ("all".data))).parallelMode ≠ ("all".data) ∧
    handleWorkflowBResult (rulesInit (some ("all".data))) bResultOk
      = BAction.enqueuedModelQueue ∧
    handleWorkflowBResult (rulesInit (some ("all".data))) bResultOk
      ≠ BAction.spawnedDetached := by
  decide

/-- C10 (amended): `initialize` unconditionally forces the mode to `wait`
regardless of the configured value, so after initialization every valid
workflow-B result is enqueued onto the per-chat model queue; the detached
spawn of workflow C happens only if the mode is later switched to `all`
through `set_mode`. -/
theorem c10_mode_forced_wait (configMode : Option PyStr) (wr : BResult)
    (hs : wr.success = true)
    (hc : (wr.chatId.getD []).isEmpty = false)
    (hd : (wr.sessionId.getD []).isEmpty = false) :
    (rulesInit configMode).parallelMode = ("wait".data) ∧
    handleWorkflowBResult (rulesInit configMode) wr = BAction.enqueuedModelQueue ∧
    handleWorkflowBResult (rulesSetMode (rulesInit configMode) ("all".data)) wr
      = BAction.spawnedDetached := by
  refine ⟨rfl, ?_, ?_⟩ <;>
    simp [handleWorkflowBResult, rulesInit, rulesSetMode, hs, hc, hd]

/-- C10 witness: the amended statement evaluated on the `all`
configuration and the fixture workflow-B result. -/
theorem c10_mode_forced_wait_witness :
    (rulesInit (some ("all".data))).parallelMode = ("wait".data) ∧
    handleWorkflowBResult (rulesInit (some ("all".data))) bResultOk
      = BAction.enqueuedModelQueue ∧
    handleWorkflowBResult (rulesSetMode (rulesInit (some ("all".data))) ("all".data)) bResultOk
      = BAction.spawnedDetached :=
  c10_mode_forced_wait (some ("all".data)) bResultOk (by decide) (by decide) (by decide)

/-- C9: for every registered and enabled tool,
`execute_tool_with_timeout` returns exactly the timeout string
`工具执行超时 (超时时间: Ns)` (with `N` the tool's configured timeout) on
deadline expiry, `工具执行失败: msg` when the handler raises, and the
handler's result coerced to string on success. -/
theorem c9_execute_tool_with_timeout_strings (registry : List PyStr)
    (cfgs : List (PyStr × ToolCfg)) (toolName : PyStr)
    (hreg : toolName ∈ registry)
    (hen : (lookupToolCfg cfgs toolName).enabled = true) :
    (executeToolWithTimeout registry cfgs toolName HandlerOutcome.timedOut
      = ("工具执行超时 (超时时间: ".data) ++ (lookupToolCfg cfgs toolName).timeoutStr
          ++ ("s)".data)) ∧
    (∀ m, executeToolWithTimeout registry cfgs toolName (HandlerOutcome.raised m)
      = ("工具执行失败: ".data) ++ m) ∧
    (∀ v, executeToolWithTimeout registry cfgs toolName (HandlerOutcome.ok v) = v) := by
  refine ⟨?_, fun m => ?_, fun v => ?_⟩ <;>
    simp [executeToolWithTimeout, hreg, hen]

/-- C9 witness: the theorem evaluated on a registered, enabled tool with
configured timeout `0.1`. -/
theorem c9_execute_tool_with_timeout_strings_witness :
    (executeToolWithTimeout [("slow_tool".data)]
        [((("slow_tool".data) : PyStr), { timeoutStr := ("0.1".data), enabled := true })]
        ("slow_tool".data) HandlerOutcome.timedOut
      = ("工具执行超时 (超时时间: ".data)
          ++ (lookupToolCfg [((("slow_tool".data) : PyStr),
                { timeoutStr := ("0.1".data), enabled := true })] ("slow_tool".data)).timeoutStr
          ++ ("s)".data)) ∧
    (∀ m, executeToolWithTimeout [("slow_tool".data)]
        [((("slow_tool".data) : PyStr), { timeoutStr := ("0.1".data), enabled := true })]
        ("slow_tool".data) (HandlerOutcome.raised m) = ("工具执行失败: ".data) ++ m) ∧
    (∀ v, executeToolWithTimeout [("slow_tool".data)]
        [((("slow_tool".data) : PyStr), { timeoutStr := ("0.1".data), enabled := true })]
        ("slow_tool".data) (HandlerOutcome.ok v) = v) :=
  c9_execute_tool_with_timeout_strings _ _ _ (by decide) (by decide)

/-- C3: `ToolManager` defines no `execute_tool` (only
`execute_tool_with_timeout`), so `_execute_tool_call` always ends in its
exception handler and returns `None`; consequently the tool loop collects
no results, breaks out of its first iteration, and the final response of
the loop is the first model response, with the session store untouched. -/
theorem c3_execute_tool_missing_tool_loop_noop :
    ("execute_tool" ∉ toolManagerMethodNames) ∧
    ("execute_tool_with_timeout" ∈ toolManagerMethodNames) ∧
    (∀ tc, executeToolCall tc = none) ∧
    (∀ (backend : Nat → Option ModelResponse) (sid : PyStr)
        (initial : ModelResponse) (st : SessionStore),
      processToolCalls backend sid initial st = (some initial, st)) :=
  ⟨by decide, by decide, fun _ => rfl, processToolCalls_noop⟩

/-- C1 (counterexample): processing `{chat_id:"c1", content:"hi",
is_respond:false}` on a fresh chat under the default configuration leaves
the context's LAST message as the virtual assistant reply `已跳过此信息`,
not the user message `hi`: `update_context` on a user entry appends the
user message AND a virtual reply (`virtual_reply_enabled` defaults to
true). -/
theorem c1_counterexample :
    ((workflowA defaultCtxConfig (fun _ => []) (defaultContext defaultCtxConfig) [] mdC1).1.ctx.messages
      = [sysDefaultMsg, userHiMsg, virtualReplyMsg]) ∧
    ((workflowA defaultCtxConfig (fun _ => []) (defaultContext defaultCtxConfig) [] mdC1).1.ctx.messages.getLast?
      = some virtualReplyMsg) ∧
    virtualReplyMsg ≠ userHiMsg ∧
    virtualReplyMsg.role ≠ roleUser := by
  decide

/-- C1 (amended): for a fresh chat, workflow A on
`{chat_id:"c1", content:"hi", is_respond:false}` appends the user message
`hi` followed, when `virtual_reply_enabled` is set (the default), by the
virtual assistant reply — with the flag cleared the last message is
exactly the user message; no response is sent to the frontend and the
session store is untouched. -/
theorem c1_workflow_a_ambient (cfg : CtxConfig) (execCmd : MessageData → PyStr)
    (st : SessionStore) (hmax : 0 < cfg.maxUserMessagesPerChat) :
    determineWorkflowType mdC1 = ("A".data) ∧
    (workflowA cfg execCmd (defaultContext cfg) st mdC1).1.response = none ∧
    (workflowA cfg execCmd (defaultContext cfg) st mdC1).2 = st ∧
    (workflowA cfg execCmd (defaultContext cfg) st mdC1).1.ctx.messages
      = [mkMsg roleSystem (Content.str cfg.corePrompt),
         mkMsg roleUser (Content.str ("hi".data))] ++
        (if cfg.virtualReplyEnabled then
          [mkMsg roleAssistant (Content.str cfg.virtualReplyText)] else []) := by
  have hcmd : isCommandMsg mdC1 = false := by decide
  have hrole : ¬ (mdC1.role.getD roleUser = roleAssistant) := by decide
  have hextract : extractMessageContent mdC1 = some (Content.str ("hi".data)) := by decide
  have htr : pyTruthyContent (Content.str ("hi".data)) = true := by decide
  have hupd : updateContext cfg (defaultContext cfg) mdC1
      = { success := true
          ctx := { messages := (trimMessages cfg.maxUserMessagesPerChat
            ((defaultContext cfg).messages ++ [mkMsg roleUser (Content.str ("hi".data))] ++
              (if cfg.virtualReplyEnabled then
                [mkMsg roleAssistant (Content.str cfg.virtualReplyText)] else []))) } } := by
    simp [updateContext, hrole, hextract, htr]
  have hcount : userCount ((defaultContext cfg).messages
      ++ [mkMsg roleUser (Content.str ("hi".data))] ++
      (if cfg.virtualReplyEnabled then
        [mkMsg roleAssistant (Content.str cfg.virtualReplyText)] else [])) = 1 := by
    by_cases hv : cfg.virtualReplyEnabled <;>
      simp [hv, defaultContext, userCount_cons, userCount_append, mkMsg,
        roleSystem_ne_user, roleAssistant_ne_user, userCount]
  refine ⟨by decide, ?_, rfl, ?_⟩
  · simp [workflowA, hcmd]
  · simp only [workflowA, hcmd, Bool.false_eq_true, if_false, hupd]
    rw [trimMessages_of_le _ _ (by rw [hcount]; omega)]
    simp [defaultContext]

/-- C1 witness: the amended claim evaluated under the default
configuration and the empty session store. -/
theorem c1_workflow_a_ambient_witness :
    determineWorkflowType mdC1 = ("A".data) ∧
    (workflowA defaultCtxConfig (fun _ => []) (defaultContext defaultCtxConfig) [] mdC1).1.response = none ∧
    (workflowA defaultCtxConfig (fun _ => []) (defaultContext defaultCtxConfig) [] mdC1).2 = ([] : SessionStore) ∧
    (workflowA defaultCtxConfig (fun _ => []) (defaultContext defaultCtxConfig) [] mdC1).1.ctx.messages
      = [mkMsg roleSystem (Content.str defaultCtxConfig.corePrompt),
         mkMsg roleUser (Content.str ("hi".data))] ++
        (if defaultCtxConfig.virtualReplyEnabled then
          [mkMsg roleAssistant (Content.str defaultCtxConfig.virtualReplyText)] else []) :=
  c1_workflow_a_ambient defaultCtxConfig (fun _ => []) [] (by decide)

/-- C2 (counterexample): running the tool loop on a response that requests
tool call `t1` leaves the session transcript exactly as it was — in
particular no `{role: assistant, content: null, tool_calls: [...]}`
message is ever appended to the session, and `tool_call_count` stays 0
instead of becoming 1. -/
theorem c2_counterexample :
    hasToolCallsResp respWithToolCall = true ∧
    (processToolCalls (fun _ => some respDone) ("s1".data) respWithToolCall storeS1).2
      = storeS1 ∧
    (lookupSession (processToolCalls (fun _ => some respDone) ("s1".data)
        respWithToolCall storeS1).2 ("s1".data)).map Session.messages
      = some [userHiMsg] ∧
    ([userHiMsg].all (fun m => decide (m.toolCalls = []) && decide (¬ m.role = roleAssistant)))
      = true ∧
    sessUserHi.toolCallCount = 0 := by
  decide

/-- C2 (amended): the workflow engine never appends the assistant
tool-calls message to the session: `update_session` (the only session
write in the tool loop) appends exactly the tool result messages it is
given, in order, after the existing transcript, and bumps
`tool_call_count` by their number — and since `_execute_tool_call` always
returns `None`, the loop in fact appends nothing at all. -/
theorem c2_update_session_appends_only_tool_results (st : SessionStore) (sid : PyStr)
    (s : Session) (toolResults : List Msg) (h : lookupSession st sid = some s) :
    ((updateSession st sid toolResults).1 = true ∧
     lookupSession (updateSession st sid toolResults).2 sid
       = some { messages := s.messages ++ toolResults
                toolCallCount := s.toolCallCount + toolResults.length }) ∧
    (∀ (backend : Nat → Option ModelResponse) (initial : ModelResponse),
      (processToolCalls backend sid initial st).2 = st) :=
  ⟨lookupSession_updateSession st sid s toolResults h,
   fun backend initial => by rw [processToolCalls_noop]⟩

/-- C2 witness: the amended claim evaluated on the fixture store with one
concrete tool result message. -/
theorem c2_update_session_appends_only_tool_results_witness :
    ((updateSession storeS1 ("s1".data) [mkMsg roleTool (Content.str ("ok".data))]).1 = true ∧
     lookupSession (updateSession storeS1 ("s1".data)
         [mkMsg roleTool (Content.str ("ok".data))]).2 ("s1".data)
       = some { messages := sessUserHi.messages ++ [mkMsg roleTool (Content.str ("ok".data))]
                toolCallCount := sessUserHi.toolCallCount
                  + [mkMsg roleTool (Content.str ("ok".data))].length }) ∧
    (∀ (backend : Nat → Option ModelResponse) (initial : ModelResponse),
      (processToolCalls backend ("s1".data) initial storeS1).2 = storeS1) :=
  c2_update_session_appends_only_tool_results storeS1 ("s1".data) sessUserHi
    [mkMsg roleTool (Content.str ("ok".data))] (by decide)

/-- C5 (counterexample): when the model backend returns `None`, workflow C
sends the error response `处理消息时发生错误: 模型服务调用失败` but returns
WITHOUT cleaning up the session: `s1` is still in the store afterwards,
refuting `the session is always cleaned up`. -/
theorem c5_counterexample :
    (workflowC none (fun _ => none) storeS1 (some ("s1".data))).1.success = false ∧
    handleWorkflowCResult (workflowC none (fun _ => none) storeS1 (some ("s1".data))).1
      = some ("处理消息时发生错误: 模型服务调用失败".data) ∧
    (workflowC none (fun _ => none) storeS1 (some ("s1".data))).2 = storeS1 ∧
    lookupSession (workflowC none (fun _ => none) storeS1 (some ("s1".data))).2 ("s1".data)
      = some sessUserHi := by
  decide

/-- C5 (amended): when the model backend call returns null, the error
response `处理消息时发生错误: 模型服务调用失败` is sent to the chat but the
session is NOT cleaned up on that path (the store is returned unchanged);
the session is removed from the store before the workflow returns only on
the successful path. -/
theorem c5_model_null_skips_cleanup (st : SessionStore) (sid : PyStr) (s : Session)
    (backend : Nat → Option ModelResponse) (h : lookupSession st sid = some s) :
    ((workflowC none backend st (some sid)).1.success = false ∧
     handleWorkflowCResult (workflowC none backend st (some sid)).1
       = some (("处理消息时发生错误: ".data) ++ ("模型服务调用失败".data)) ∧
     (workflowC none backend st (some sid)).2 = st) ∧
    (∀ r0, (workflowC (some r0) backend st (some sid)).1.success = true ∧
      (workflowC (some r0) backend st (some sid)).2 = cleanupSession st sid) := by
  constructor
  · simp [workflowC, h, handleWorkflowCResult]
  · intro r0
    constructor <;> simp [workflowC, h, processToolCalls_noop]

/-- C5 witness: the amended claim evaluated on the fixture store. -/
theorem c5_model_null_skips_cleanup_witness :
    (((workflowC none (fun _ => none) storeS1 (some ("s1".data))).1.success = false ∧
      handleWorkflowCResult (workflowC none (fun _ => none) storeS1 (some ("s1".data))).1
        = some (("处理消息时发生错误: ".data) ++ ("模型服务调用失败".data)) ∧
      (workflowC none (fun _ => none) storeS1 (some ("s1".data))).2 = storeS1) ∧
     (∀ r0, (workflowC (some r0) (fun _ => none) storeS1 (some ("s1".data))).1.success = true ∧
       (workflowC (some r0) (fun _ => none) storeS1 (some ("s1".data))).2
         = cleanupSession storeS1 ("s1".data))) :=
  c5_model_null_skips_cleanup storeS1 ("s1".data) sessUserHi (fun _ => none) (by decide)

/-- C6 (counterexample): trimming does NOT remove tool messages with their
round.  On `[system, user A, assistant a1, tool b2, user B]` with limit 1,
the round scan stops at the tool message, so trimming deletes only
`user A, assistant a1` and leaves `[system, tool b2, user B]` — the tool
message is now an orphan (no preceding user), violating both halves of the
claim. -/
theorem c6_counterexample :
    trimMessages 1 [sysDefaultMsg, uAMsg, a1Msg, t1Msg, uBMsg]
      = [sysDefaultMsg, t1Msg, uBMsg] ∧
    t1Msg.role = roleTool ∧
    noOrphans false [sysDefaultMsg, uAMsg, a1Msg, t1Msg, uBMsg] = true ∧
    noOrphans false (trimMessages 1 [sysDefaultMsg, uAMsg, a1Msg, t1Msg, uBMsg]) = false := by
  decide

/-- C6 (amended): a trimmed dialogue round is the oldest user message plus
the contiguous run of ASSISTANT messages after it (tool messages are not
part of a round); and on transcripts that contain only system, user and
assistant roles — with all system messages in front, exactly the shape
`update_context` itself produces — any update call (with assistant entries
appended only when a user message already exists) leaves no assistant
message that is not preceded by a user message. -/
theorem c6_trim_whole_rounds :
    (∀ (s : List Msg), (∀ m ∈ s, m.role = roleSystem) →
      ∀ (u : Msg), u.role = roleUser → ∀ (rest : List Msg) (t : Nat),
      trimGo false (t + 1) (s ++ u :: rest)
        = s ++ trimGo false t (rest.dropWhile isAssistantMsg)) ∧
    (∀ (cfg : CtxConfig) (ctx : Context) (md : MessageData),
      WFCtx ctx.messages →
      (md.role.getD roleUser = roleAssistant → 0 < userCount ctx.messages) →
      WFCtx ((updateContext cfg ctx md).ctx.messages)) :=
  ⟨trimGo_removes_round, updateContext_wf⟩

/-- C6 witness: the amended claim evaluated on a concrete round (the
`user A, assistant a1` round behind one system message) and on a concrete
update of a fresh well-formed context. -/
theorem c6_trim_whole_rounds_witness :
    (trimGo false (0 + 1) ([sysDefaultMsg] ++ uAMsg :: [a1Msg, uBMsg])
      = [sysDefaultMsg] ++ trimGo false 0 ([a1Msg, uBMsg].dropWhile isAssistantMsg)) ∧
    WFCtx ((updateContext defaultCtxConfig { messages := [sysDefaultMsg] } mdC1).ctx.messages) :=
  ⟨c6_trim_whole_rounds.1 [sysDefaultMsg] (by decide) uAMsg (by decide) [a1Msg, uBMsg] 0,
   c6_trim_whole_rounds.2 defaultCtxConfig { messages := [sysDefaultMsg] } mdC1
     (by
       unfold WFCtx RolesSUA SysFront
       exact ⟨by decide, List.pairwise_singleton _ _, by decide⟩)
     (by decide)⟩

/-- C8 (counterexample): set a custom prompt equal to the core prompt
itself (a non-empty text): `get_custom_prompt` then reports
`("", false)` instead of `(X, true)` — `content.replace(core_prompt, "")`
removes every occurrence, including the one inside the custom text. -/
theorem c8_counterexample :
    ("你是智能助手".data ≠ ([] : PyStr)) ∧
    getCustomPrompt ("你是智能助手".data)
        (updateCustomPrompt ("你是智能助手".data) (defaultContext defaultCtxConfig)
          ("你是智能助手".data))
      = { customPrompt := [], hasCustomPrompt := false } := by
  decide

/-- C8 (amended): for every chat and every text X that is non-empty, free
of surrounding whitespace, and such that the core prompt occurs in the
stored system content `X + "\n" + core_prompt` only as its final
occurrence, `update_custom_prompt(X)` then `get_custom_prompt` returns
`(X, true)`, and a subsequent `delete_custom_prompt` then
`get_custom_prompt` returns `("", false)`. -/
theorem c8_custom_prompt_roundtrip (core : PyStr) (ctx : Context) (x : PyStr)
    (hcore : core ≠ []) (hxs : pyStrip x = x) (hxne : x ≠ [])
    (honly : ¬ core <:+: (x ++ ("\n".data) ++ core.dropLast)) :
    getCustomPrompt core (updateCustomPrompt core ctx x)
      = { customPrompt := x, hasCustomPrompt := true } ∧
    getCustomPrompt core (deleteCustomPrompt core (updateCustomPrompt core ctx x))
      = { customPrompt := [], hasCustomPrompt := false } := by
  have hfull : updateCustomPrompt core ctx x
      = { messages := setSystemContent ctx.messages (x ++ ("\n".data) ++ core) } := by
    unfold updateCustomPrompt
    rw [hxs, if_neg (by simpa [List.isEmpty_iff] using hxne)]
  constructor
  · rw [hfull]
    obtain ⟨m', hfind, hrole, hcontent⟩ :=
      find?_setSystemContent (x ++ ("\n".data) ++ core) ctx.messages
    unfold getCustomPrompt
    simp only [hfind, hcontent]
    have hnec : ¬ (x ++ ("\n".data) ++ core = core) := by
      intro hcon
      have := congrArg List.length hcon
      simp [List.length_append] at this
      omega
    rw [if_neg hnec]
    have hinf : core <:+: (x ++ ("\n".data) ++ core) :=
      (List.suffix_append (x ++ ("\n".data)) core).isInfix
    rw [if_pos hinf]
    have hrep : pyReplace (x ++ ("\n".data) ++ core) core [] = x ++ ("\n".data) := by
      apply pyReplace_only_final core (x ++ ("\n".data)) hcore
      rw [List.dropLast_append_of_ne_nil _ hcore]
      exact honly
    rw [hrep, pyStrip_append_newline x hxs hxne]
    have hie : x.isEmpty = false := by simpa [List.isEmpty_iff] using hxne
    simp [hie]
  · obtain ⟨m', hfind, hrole, hcontent⟩ :=
      find?_setSystemContent core (updateCustomPrompt core ctx x).messages
    unfold deleteCustomPrompt getCustomPrompt
    simp only [hfind, hcontent]
    simp

/-- C8 witness: the amended round trip evaluated with the default core
prompt and the custom text `你好`. -/
theorem c8_custom_prompt_roundtrip_witness :
    getCustomPrompt ("你是智能助手".data)
        (updateCustomPrompt ("你是智能助手".data) (defaultContext defaultCtxConfig) ("你好".data))
      = { customPrompt := ("你好".data), hasCustomPrompt := true } ∧
    getCustomPrompt ("你是智能助手".data)
        (deleteCustomPrompt ("你是智能助手".data)
          (updateCustomPrompt ("你是智能助手".data) (defaultContext defaultCtxConfig) ("你好".data)))
      = { customPrompt := [], hasCustomPrompt := false } :=
  c8_custom_prompt_roundtrip ("你是智能助手".data) (defaultContext defaultCtxConfig)
    ("你好".data) (by decide) (by decide) (by decide) (by decide)

/-- C7: for every context state within the bound and every
`update_context` call, the number of user-role messages after the call is
at most `max_user_messages_per_chat` — both append paths run trimming,
which caps the user count at the limit, and the failure path leaves the
context untouched. -/
theorem c7_user_message_bound (cfg : CtxConfig) (ctx : Context) (md : MessageData)
    (h : userCount ctx.messages ≤ cfg.maxUserMessagesPerChat) :
    userCount (updateContext cfg ctx md).ctx.messages ≤ cfg.maxUserMessagesPerChat := by
  by_cases hrole : md.role.getD roleUser = roleAssistant
  · simp only [updateContext, hrole, if_true]
    rw [trimMessages_userCount]
    omega
  · cases hex : extractMessageContent md with
    | none => simpa [updateContext, hrole, hex] using h
    | some c =>
      by_cases htr : pyTruthyContent c = true
      · simp only [updateContext, hrole, if_false, hex, htr, if_true]
        rw [trimMessages_userCount]
        omega
      · simpa [updateContext, hrole, hex, htr] using h

/-- C7 witness: the bound evaluated on a context already holding one user
message under a limit of 1. -/
theorem c7_user_message_bound_witness :
    userCount (updateContext
        { corePrompt := ("你是智能助手".data), maxUserMessagesPerChat := 1
          virtualReplyEnabled := true, virtualReplyText := ("已跳过此信息".data) }
        { messages := [sysDefaultMsg, userHiMsg] } mdC1).ctx.messages
      ≤ ({ corePrompt := ("你是智能助手".data), maxUserMessagesPerChat := 1
           virtualReplyEnabled := true, virtualReplyText := ("已跳过此信息".data) }
          : CtxConfig).maxUserMessagesPerChat :=
  c7_user_message_bound _ { messages := [sysDefaultMsg, userHiMsg] } mdC1 (by decide)

end AIChat
